import Mathlib

/-!
Shallow embedding of the PayStabl x402 payment-handling logic documented in
this repository, and proofs about it.

Sources embedded here:
* `src/docs/reference/x402_headers.mdx` — `X402Validator.parsePaymentHeader`,
  `X402Handler.handleX402Response` / `parseX402Headers` /
  `formatPaymentHeader`, `SecurePaymentVerification.verifyPayment`,
  `PaymentRateLimit.checkRateLimit`;
* `src/docs/security.mdx` — `PolicyEnforcement.validateTransaction` and
  `PolicyEnforcement.checkSpendingLimits`;
* `src/docs/architecture.mdx` — the `AgentWallet` Solidity contract's
  `executePayment`;
* `src/docs/examples/langgraph_retry.mdx` — the `PaymentRetryWorkflow`
  retry/fallback state machine.

External collaborators that the documented code calls but does not define
(signature verification, blockchain lookups, the PayStabl payment processor,
header sub-parsers, the time/velocity/fraud checks) are passed in as explicit
function parameters, so every definition here is executable.
-/

namespace Paystabl

/-! ## Header codec (`x402_headers.mdx`, client and validator code) -/

/-- The `Payment` object produced by `X402Validator.parsePaymentHeader`:
every field comes from `params.get(...)`, which yields a string or null. -/
structure Payment where
  type : Option String
  receipt : Option String
  signature : Option String
  agent : Option String
  amount : Option String
deriving DecidableEq, Repr

/-- The `PaymentResult` consumed by `X402Handler.formatPaymentHeader`
(`payment.txHash`, `payment.signature`, `payment.agentId`) and by
`JSON.stringify(payment.receipt)`, modelled as the already-serialised
receipt string. -/
structure PaymentResult where
  txHash : String
  signature : String
  agentId : String
  receiptJson : String
deriving DecidableEq, Repr

/-- `header.replace(/=/g, '&')` from `parsePaymentHeader`: every `=` becomes
`&`. -/
def replaceEqAmp (s : String) : String :=
  String.mk (s.toList.map fun c => if c = '=' then '&' else c)

/-- Split a character list at every occurrence of `sep`. -/
def splitChar (sep : Char) (l : List Char) : List (List Char) :=
  l.foldr
    (fun c acc =>
      match acc with
      | [] => [[c]]
      | cur :: rest => if c = sep then [] :: cur :: rest else (c :: cur) :: rest)
    [[]]

/-- One `URLSearchParams` entry: the key is everything before the first `=`,
the value everything after it. -/
def pairOfToken (t : List Char) : String × String :=
  (String.mk (t.takeWhile (fun c => c ≠ '=')),
   String.mk ((t.dropWhile (fun c => c ≠ '=')).drop 1))

/-- `new URLSearchParams(s)`: split on `&`, drop empty segments, read each
segment as `key=value` (a segment without `=` is a key with empty value). -/
def urlSearchParams (s : String) : List (String × String) :=
  ((splitChar '&' s.toList).filter (fun t => t ≠ [])).map pairOfToken

/-- `params.get(k)`: the first value stored under `k`, or null. -/
def getParam (ps : List (String × String)) (k : String) : Option String :=
  (ps.find? (fun e => e.1 = k)).map (fun e => e.2)

/-- `X402Validator.parsePaymentHeader`: replaces every `=` with `&`, feeds the
result to `URLSearchParams`, and reads the five fields. -/
def parsePaymentHeader (header : String) : Payment :=
  let params := urlSearchParams (replaceEqAmp header)
  { type := getParam params "type"
    receipt := getParam params "receipt"
    signature := getParam params "signature"
    agent := getParam params "agent"
    amount := getParam params "amount" }

/-- `X402Handler.formatPaymentHeader`:
`type=paystabl receipt=${txHash} signature=${signature} agent=${agentId}`. -/
def formatPaymentHeader (payment : PaymentResult) : String :=
  "type=paystabl receipt=" ++ payment.txHash ++ " signature=" ++
    payment.signature ++ " agent=" ++ payment.agentId

/-! ## Client-side x402 handler (`x402_headers.mdx`, `X402Handler`) -/

/-- The `PaymentDetails` record built by `X402Handler.parseX402Headers`.
The code reads only these four headers; there is no `currency` or
`recipient` field. -/
structure PaymentDetails where
  acceptedMethods : List String
  amount : Option ℚ
  purpose : Option String
  expiresAt : Int
deriving DecidableEq, Repr

/-- The argument object `X402Handler.handleX402Response` passes to
`this.paystabl.processPayment`. `currency` and `recipient` are read from
fields `PaymentDetails` does not have, so they are always null. -/
structure ProcessRequest where
  amount : Option ℚ
  currency : Option String
  purpose : Option String
  recipient : Option String
deriving DecidableEq, Repr

/-- Helpers the handler calls whose bodies the repository does not show
(`parseAcceptPayment`, `parseAmount`, `new Date(...)`) and the external
PayStabl processor, passed in as parameters. -/
structure X402Env where
  parseAcceptPayment : Option String → List String
  parseAmount : Option String → Option ℚ
  toDate : Option String → Int
  processPayment : ProcessRequest → PaymentResult

/-- `headers.get(name)` over a response-header list. -/
def headerGet (hs : List (String × String)) (k : String) : Option String :=
  (hs.find? (fun e => e.1 = k)).map (fun e => e.2)

/-- `X402Handler.parseX402Headers`: reads `Accept-Payment`, `Payment-Amount`,
`Payment-Purpose` and `Payment-Expires` and builds `PaymentDetails`. -/
def parseX402Headers (env : X402Env) (hs : List (String × String)) :
    PaymentDetails :=
  { acceptedMethods := env.parseAcceptPayment (headerGet hs "Accept-Payment")
    amount := env.parseAmount (headerGet hs "Payment-Amount")
    purpose := headerGet hs "Payment-Purpose"
    expiresAt := env.toDate (headerGet hs "Payment-Expires") }

/-- The `processPayment` argument built from parsed details in
`handleX402Response`. -/
def processRequestOf (d : PaymentDetails) : ProcessRequest :=
  { amount := d.amount, currency := none, purpose := d.purpose,
    recipient := none }

/-- The observable outcome of `handleX402Response`: which requests were sent
to the payment processor (the signing step), and the headers returned for
the retry request. -/
structure X402Outcome where
  signerRequests : List ProcessRequest
  retryHeaders : List (String × String)
deriving DecidableEq, Repr

/-- `X402Handler.handleX402Response`: parses the x402 headers, processes the
payment via PayStabl, and returns the `X-Payment` / `X-Payment-Receipt`
headers for the retry.  The code has no other branch: every parsed offer is
paid. -/
def handleX402Response (env : X402Env) (hs : List (String × String)) :
    X402Outcome :=
  let paymentDetails := parseX402Headers env hs
  let req := processRequestOf paymentDetails
  let payment := env.processPayment req
  { signerRequests := [req]
    retryHeaders :=
      [("X-Payment", formatPaymentHeader payment),
       ("X-Payment-Receipt", payment.receiptJson)] }

/-! ## Server-side replay guard (`x402_headers.mdx`,
`SecurePaymentVerification.verifyPayment`) -/

/-- `txDetails` returned by `getTransactionDetails`. -/
structure TxDetails where
  amount : ℚ
  recipient : String
  timestamp : Nat
deriving DecidableEq, Repr

/-- The external collaborators `verifyPayment` awaits, plus the verifier's
configuration (`this.requiredAmount`, `this.paymentAddress`). -/
structure VerifyEnv where
  verifySignature : Payment → Bool
  verifyTransactionExists : Option String → Bool
  getTransactionDetails : Option String → TxDetails
  requiredAmount : ℚ
  paymentAddress : String

/-- The errors `verifyPayment` throws, in source order. -/
inductive VerifyError where
  | invalidSignature
  | txNotFound
  | insufficientAmount
  | wrongRecipient
  | alreadyUsed
deriving DecidableEq, Repr

/-- The success value of `verifyPayment`. -/
structure VerificationResult where
  valid : Bool
  amount : ℚ
  timestamp : Nat
deriving DecidableEq, Repr

/-- `SecurePaymentVerification.verifyPayment`.  The used-payment store
behind `checkPaymentUsed` / `markPaymentUsed` is the list `used` of consumed
receipt keys; a successful verification returns the result together with the
updated store. -/
def verifyPayment (env : VerifyEnv) (payment : Payment)
    (used : List (Option String)) :
    Except VerifyError (VerificationResult × List (Option String)) :=
  if env.verifySignature payment then
    if env.verifyTransactionExists payment.receipt then
      let txDetails := env.getTransactionDetails payment.receipt
      if txDetails.amount < env.requiredAmount then
        .error .insufficientAmount
      else if txDetails.recipient ≠ env.paymentAddress then
        .error .wrongRecipient
      else if payment.receipt ∈ used then
        .error .alreadyUsed
      else
        .ok ({ valid := true, amount := txDetails.amount,
               timestamp := txDetails.timestamp }, payment.receipt :: used)
    else .error .txNotFound
  else .error .invalidSignature

/-! ## Policy engine (`security.mdx`, `PolicyEnforcement`) -/

/-- The `SpendingPolicies` interface fields used by the shown code paths.
Decimal amount strings (`"10.00"`) are modelled as exact rationals, matching
how `parseFloat` behaves on the documented values. -/
structure SpendingPolicies where
  dailyLimit : ℚ
  weeklyLimit : ℚ
  monthlyLimit : ℚ
  perTransactionLimit : ℚ
  allowedHours : List Nat
  allowedDays : List Nat
  timezone : String
  maxTransactionsPerHour : Nat
  maxTransactionsPerDay : Nat
  cooldownPeriod : Nat
deriving DecidableEq, Repr

/-- The result each policy check returns: `valid`, an optional `error`
message and an optional `requiresApproval` flag (absent means false). -/
structure ValidationResult where
  valid : Bool
  error : Option String := none
  requiresApproval : Bool := false
deriving DecidableEq, Repr

/-- `this.getCurrentSpending(agentId)`; the shown code reads only `.daily`. -/
structure CurrentSpending where
  daily : ℚ
deriving DecidableEq, Repr

/-- `PolicyEnforcement.checkSpendingLimits`: per-transaction limit first,
then the daily limit; exceeding the per-transaction limit is flagged
`requiresApproval`. -/
def checkSpendingLimits (currentSpend : CurrentSpending) (amount : ℚ)
    (policies : SpendingPolicies) : ValidationResult :=
  if amount > policies.perTransactionLimit then
    { valid := false, error := some "Transaction exceeds per-transaction limit",
      requiresApproval := true }
  else if currentSpend.daily + amount > policies.dailyLimit then
    { valid := false, error := some "Transaction would exceed daily limit",
      requiresApproval := false }
  else
    { valid := true }

/-- The aggregate result of `PolicyEnforcement.validateTransaction`:
`valid: failed.length === 0`, `errors: failed.map(f => f.error)`,
`requiresApproval: failed.some(f => f.requiresApproval)`. -/
structure TxValidation where
  valid : Bool
  errors : List (Option String)
  requiresApproval : Bool
deriving DecidableEq, Repr

/-- `PolicyEnforcement.validateTransaction`.  The four checks are all
evaluated (`Promise.all`); `checkTimeRestrictions`, `checkVelocityLimits`
and `checkSuspiciousActivity` have no bodies in the repository, so their
results are parameters. -/
def validateTransaction (currentSpend : CurrentSpending) (amount : ℚ)
    (policies : SpendingPolicies)
    (timeCheck velocityCheck suspiciousCheck : ValidationResult) :
    TxValidation :=
  let validations :=
    [checkSpendingLimits currentSpend amount policies,
     timeCheck, velocityCheck, suspiciousCheck]
  let failed := validations.filter (fun v => !v.valid)
  { valid := failed.isEmpty
    errors := failed.map (fun f => f.error)
    requiresApproval := failed.any (fun f => f.requiresApproval) }

/-! ## On-chain wallet (`architecture.mdx`, `contract AgentWallet`) -/

/-- The `AgentWallet` contract storage: addresses are modelled as naturals,
token amounts as naturals (uint256 values small enough not to wrap). -/
structure AgentWallet where
  agent : Nat
  dailyLimits : Nat → Nat
  dailySpent : Nat → Nat
  allowlist : Nat → Bool

/-- One call to `executePayment` and whether the external value transfer
inside it succeeds. -/
structure PaymentOp where
  sender : Nat
  recipient : Nat
  amount : Nat
  callOk : Bool

/-- `AgentWallet.executePayment` with its modifiers, in source order:
`onlyAgent`, `withinLimits(amount)`, then the body's allowlist check, the
spend update and the external call.  A failed `require` reverts the whole
call, so the spend update survives only on full success. -/
def executePayment (w : AgentWallet) (op : PaymentOp) :
    Except String AgentWallet :=
  if op.sender = w.agent then
    if w.dailySpent op.sender + op.amount ≤ w.dailyLimits op.sender then
      if w.allowlist op.recipient then
        if op.callOk then
          .ok { w with
                dailySpent := fun a =>
                  if a = op.sender then w.dailySpent a + op.amount
                  else w.dailySpent a }
        else .error "Payment failed"
      else .error "Recipient not allowed"
    else .error "Daily limit exceeded"
  else .error "Only agent can execute"

/-- A sequence of `executePayment` calls; a reverted call leaves storage
unchanged. -/
def runPayments (w : AgentWallet) (ops : List PaymentOp) : AgentWallet :=
  ops.foldl
    (fun w op => match executePayment w op with
      | .ok w' => w'
      | .error _ => w)
    w

/-! ## Payment rate limiter (`x402_headers.mdx`, `PaymentRateLimit`) -/

/-- The `attempts: Map<string, number>` store, as an association list;
`get(key) || 0` and `set(key, v)` mirror the JS `Map`. -/
def attemptsGet (m : List (String × Nat)) (k : String) : Nat :=
  ((m.find? (fun e => e.1 = k)).map (fun e => e.2)).getD 0

/-- `Map.set`: overwrite the entry if the key is present, else append. -/
def attemptsSet (m : List (String × Nat)) (k : String) (v : Nat) :
    List (String × Nat) :=
  if m.any (fun e => e.1 = k) then
    m.map (fun e => if e.1 = k then (k, v) else e)
  else m ++ [(k, v)]

/-- The key `payment_attempts:${clientId}`. -/
def rateKey (clientId : String) : String := "payment_attempts:" ++ clientId

/-- `PaymentRateLimit.checkRateLimit`: refuse once 10 attempts are recorded,
otherwise admit and increment.  The deferred hourly deletion is
`resetRateLimit` below. -/
def checkRateLimit (clientId : String) (m : List (String × Nat)) :
    Bool × List (String × Nat) :=
  let key := rateKey clientId
  let attempts := attemptsGet m key
  if attempts ≥ 10 then (false, m)
  else (true, attemptsSet m key (attempts + 1))

/-- The `setTimeout` callback: `this.attempts.delete(key)` after one hour. -/
def resetRateLimit (clientId : String) (m : List (String × Nat)) :
    List (String × Nat) :=
  m.filter (fun e => e.1 ≠ rateKey clientId)

/-- `n` consecutive `checkRateLimit` calls for one client: the number of
admitted attempts and the final store. -/
def iterateRateLimit (clientId : String) :
    Nat → List (String × Nat) → Nat × List (String × Nat)
  | 0, m => (0, m)
  | n + 1, m =>
    let step := checkRateLimit clientId m
    let rest := iterateRateLimit clientId n step.2
    ((if step.1 then 1 else 0) + rest.1, rest.2)

/-! ## Retry/fallback workflow (`examples/langgraph_retry.mdx`,
`PaymentRetryWorkflow`) -/

/-- The error codes `handle_payment_failure` branches on. -/
inductive ErrorCode where
  | INSUFFICIENT_FUNDS
  | NETWORK_ERROR
  | API_UNAVAILABLE
  | RATE_LIMITED
  | UNKNOWN
deriving DecidableEq, Repr

/-- The `RetryStrategy` enum. -/
inductive RetryStrategy where
  | EXPONENTIAL_BACKOFF
  | LINEAR_BACKOFF
  | IMMEDIATE
  | ALTERNATIVE_SERVICE
deriving DecidableEq, Repr

/-- One entry of `state["payment_attempts"]`: an attempt record
(`attempt`, `service`, `amount`, `timestamp`, `status`) or a
`service_switch` record. -/
inductive LogEntry where
  | attempt (attemptNo service cost time : Nat) (success : Bool)
  | serviceSwitch (src dst : Nat)
deriving DecidableEq, Repr

/-- The `fallback_services` list set up by `validate_request` has four
entries, expensive to cheap.  `get_service_config` gives their costs (in
cents); any unknown name falls back to the free config. -/
def numServices : Nat := 4

/-- Cost in cents of the service at an index of `fallback_services`:
premium `$10.00`, standard `$5.00`, basic `$2.00`, free `$0.00`. -/
def serviceCostCents : Nat → Nat
  | 0 => 1000
  | 1 => 500
  | 2 => 200
  | _ => 0

/-- The workflow state fields the retry logic touches. `delays` records each
`asyncio.sleep` duration actually waited; `clock` is the elapsed time. -/
structure WorkflowState where
  currentService : Nat
  retryCount : Nat
  maxRetries : Nat
  log : List LogEntry
  clock : Nat
  strategy : RetryStrategy
  lastError : Option ErrorCode
  totalCost : Nat
  delays : List Nat
deriving DecidableEq, Repr

/-- The initial state `validate_request` builds, with the retry cap as a
parameter (the example hard-codes `max_retries = 5`). -/
def initState (maxRetries : Nat) : WorkflowState :=
  { currentService := 0, retryCount := 0, maxRetries := maxRetries,
    log := [], clock := 0, strategy := .EXPONENTIAL_BACKOFF,
    lastError := none, totalCost := 0, delays := [] }

/-- `validate_request` sets `max_retries = 5`. -/
def validateRequestInit : WorkflowState := initState 5

/-- Number of attempt records in the log (switch records do not count). -/
def countAttempts (l : List LogEntry) : Nat :=
  l.countP (fun e => match e with
    | .attempt _ _ _ _ _ => true
    | .serviceSwitch _ _ => false)

/-- Number of `service_switch` records in the log. -/
def switchCount (l : List LogEntry) : Nat :=
  l.countP (fun e => match e with
    | .attempt _ _ _ _ _ => false
    | .serviceSwitch _ _ => true)

/-- The timestamps of the attempt records, in order. -/
def attemptTimes (l : List LogEntry) : List Nat :=
  l.filterMap (fun e => match e with
    | .attempt _ _ _ t _ => some t
    | .serviceSwitch _ _ => none)

/-- The outcome of one `attempt_payment` call: the free service
(`cost == "0.00"`) always succeeds via `call_free_service`; a paid call's
outcome comes from the environment, indexed by how many attempts were made
before it (`none` = success, `some e` = the raised error's code). -/
def attemptOutcome (outcomes : Nat → Option ErrorCode) (s : WorkflowState) :
    Option ErrorCode :=
  if serviceCostCents s.currentService = 0 then none
  else outcomes (countAttempts s.log)

/-- `attempt_payment`: log the attempt (numbered `retry_count + 1`, stamped
with the current clock), add the cost on success, record the error on
failure. -/
def attempt_payment (s : WorkflowState) (oc : Option ErrorCode) :
    WorkflowState :=
  { s with
    log := s.log ++
      [.attempt (s.retryCount + 1) s.currentService
        (serviceCostCents s.currentService) s.clock oc.isNone]
    totalCost :=
      if oc.isNone then s.totalCost + serviceCostCents s.currentService
      else s.totalCost
    lastError := match oc with
      | some e => some e
      | none => s.lastError }

/-- `handle_payment_failure`: the retry strategy chosen for each error code
(the `else` branch covers unknown codes). -/
def classifyError : ErrorCode → RetryStrategy
  | .INSUFFICIENT_FUNDS => .ALTERNATIVE_SERVICE
  | .NETWORK_ERROR => .EXPONENTIAL_BACKOFF
  | .API_UNAVAILABLE => .ALTERNATIVE_SERVICE
  | .RATE_LIMITED => .LINEAR_BACKOFF
  | .UNKNOWN => .ALTERNATIVE_SERVICE

/-- The targets of `route_failure_handling`'s conditional edges. -/
inductive FailureRoute where
  | backoff
  | alternative
  | fallback
  | giveUp
deriving DecidableEq, Repr

/-- `route_failure_handling`: backoff strategies retry in place; the
alternative strategy switches while services remain, else uses the final
fallback; anything else gives up. -/
def route_failure_handling (s : WorkflowState) : FailureRoute :=
  match s.strategy with
  | .EXPONENTIAL_BACKOFF => .backoff
  | .LINEAR_BACKOFF => .backoff
  | .ALTERNATIVE_SERVICE =>
    if s.currentService < numServices - 1 then .alternative else .fallback
  | .IMMEDIATE => .giveUp

/-- `retry_with_backoff`: bump `retry_count`, compute the delay
(`2 ** retry_count` exponential, `retry_count * 5` linear, else 1) and sleep
`min(delay, 60)`. -/
def retry_with_backoff (s : WorkflowState) : WorkflowState :=
  let rc := s.retryCount + 1
  let delay :=
    (match s.strategy with
     | .EXPONENTIAL_BACKOFF => 2 ^ rc
     | .LINEAR_BACKOFF => rc * 5
     | _ => 1)
  { s with
    retryCount := rc
    clock := s.clock + min delay 60
    delays := s.delays ++ [min delay 60] }

/-- `try_alternative_service`: move to the next service in the fallback
chain, reset the retry count, and log the switch; with no next service the
state keeps its place (the code only records an error string). -/
def try_alternative_service (s : WorkflowState) : WorkflowState :=
  if s.currentService + 1 < numServices then
    { s with
      log := s.log ++ [.serviceSwitch s.currentService (s.currentService + 1)]
      currentService := s.currentService + 1
      retryCount := 0 }
  else s

/-- `use_fallback_service`: jump to the last (free) service and reset the
retry count. -/
def use_fallback_service (s : WorkflowState) : WorkflowState :=
  { s with currentService := numServices - 1, retryCount := 0 }

/-- The compiled workflow driver: `attempt_payment`, then
`route_payment_result` (success / `retry_count < max_retries` / failed),
then on retry `handle_payment_failure` and `route_failure_handling`, each
handler edge looping back to `attempt_payment`.  `fuel` bounds the number
of attempts evaluated; the result is the success flag and the final state,
or `none` if fuel ran out before the workflow reached a terminal node. -/
def run (outcomes : Nat → Option ErrorCode) :
    Nat → WorkflowState → Option (Bool × WorkflowState)
  | 0, _ => none
  | fuel + 1, s =>
    let oc := attemptOutcome outcomes s
    let s1 := attempt_payment s oc
    match oc with
    | none => some (true, s1)
    | some e =>
      if s1.retryCount < s1.maxRetries then
        let s2 := { s1 with strategy := classifyError e }
        match route_failure_handling s2 with
        | .backoff => run outcomes fuel (retry_with_backoff s2)
        | .alternative => run outcomes fuel (try_alternative_service s2)
        | .fallback => run outcomes fuel (use_fallback_service s2)
        | .giveUp => some (false, s2)
      else some (false, s1)

/-- Every paid attempt raises a network error: the C8 scenario's trace. -/
def netErrorTrace : Nat → Option ErrorCode := fun _ => some .NETWORK_ERROR

/-- Termination measure for the workflow: services still reachable times the
attempts each can absorb, plus the retries left at the current service. -/
def runMeasure (s : WorkflowState) : Nat :=
  (3 - s.currentService) * (s.maxRetries + 1) + (s.maxRetries - s.retryCount)

/-- What a workflow run guarantees relative to its starting state: attempts
grow by at most the measure plus one, at most the reachable services are
switched to, the retry cap is preserved, every new switch record moves one
service forward from one of the three paid tiers, and every new recorded
delay is capped at 60 seconds. -/
def RunBound (s t : WorkflowState) : Prop :=
  countAttempts t.log ≤ countAttempts s.log + runMeasure s + 1 ∧
  switchCount t.log ≤ switchCount s.log + (3 - s.currentService) ∧
  t.maxRetries = s.maxRetries ∧
  (∀ a b, LogEntry.serviceSwitch a b ∈ t.log →
    LogEntry.serviceSwitch a b ∈ s.log ∨ (b = a + 1 ∧ a < 3)) ∧
  (∀ d ∈ t.delays, d ∈ s.delays ∨ d ≤ 60)

/-! ## Concrete fixtures used by the claim theorems and witnesses -/

/-- A verification environment whose external checks all pass: valid
signatures, existing transactions paying 3 to `addr` against a required
amount of 2. -/
def verifyEnvW : VerifyEnv :=
  { verifySignature := fun _ => true
    verifyTransactionExists := fun _ => true
    getTransactionDetails := fun _ => { amount := 3, recipient := "addr", timestamp := 7 }
    requiredAmount := 2
    paymentAddress := "addr" }

/-- A concrete payment proof with receipt key `0x1`. -/
def paymentW : Payment :=
  { type := some "paystabl", receipt := some "0x1", signature := some "sig",
    agent := some "ag", amount := none }

/-- A wallet whose agent is address 0, with a daily limit of 1000 cents and
address 1 allowlisted. -/
def walletA : AgentWallet :=
  { agent := 0, dailyLimits := fun _ => 1000, dailySpent := fun _ => 0,
    allowlist := fun a => a == 1 }

/-- The C2 scenario's payment: the agent pays 600 cents ($6.00) to the
allowlisted address 1, and the external transfer succeeds. -/
def paySix : PaymentOp := { sender := 0, recipient := 1, amount := 600, callOk := true }

/-- The C2 scenario's policies: `dailyLimit` $10.00 with a per-transaction
limit that $6.00 does not reach. -/
def pol10 : SpendingPolicies :=
  { dailyLimit := 10, weeklyLimit := 70, monthlyLimit := 300,
    perTransactionLimit := 10, allowedHours := [], allowedDays := [],
    timezone := "UTC", maxTransactionsPerHour := 100,
    maxTransactionsPerDay := 1000, cooldownPeriod := 0 }

/-- The C2 scenario, evaluated on both embedded enforcement points: two
sequential $6.00 payments under a $10.00 daily limit.  On the `AgentWallet`
contract the first commits (spent becomes 600 cents), the second reverts
with the daily-limit reason and committed spend stays 600; on
`checkSpendingLimits` the first evaluation passes and the second is denied
with the daily-limit error. -/
def c2Scenario : Prop :=
  (runPayments walletA [paySix]).dailySpent 0 = 600 ∧
  executePayment (runPayments walletA [paySix]) paySix =
    .error "Daily limit exceeded" ∧
  (runPayments walletA [paySix, paySix]).dailySpent 0 = 600 ∧
  checkSpendingLimits { daily := 0 } 6 pol10 = { valid := true } ∧
  checkSpendingLimits { daily := 6 } 6 pol10 =
    { valid := false, error := some "Transaction would exceed daily limit",
      requiresApproval := false }

/-- A passing result for one of the externally-defined policy checks. -/
def passCheck : ValidationResult := { valid := true }

/-- A failing time-restriction result, as `checkTimeRestrictions` would
produce outside the allowed hours. -/
def failTimeCheck : ValidationResult :=
  { valid := false, error := some "Outside allowed hours", requiresApproval := false }

/-- Roomy policies for the C6 counterexample: a $30.00 payment passes the
per-transaction ($100.00) and daily ($1000.00) limits even though it is
above the `requireApprovalAbove: "25.00"` configured in the documentation. -/
def polWide : SpendingPolicies :=
  { dailyLimit := 1000, weeklyLimit := 7000, monthlyLimit := 30000,
    perTransactionLimit := 100, allowedHours := [], allowedDays := [],
    timezone := "UTC", maxTransactionsPerHour := 100,
    maxTransactionsPerDay := 1000, cooldownPeriod := 0 }

/-- An x402 environment whose date parser reads the offer's `Payment-Expires`
as epoch 0 (long past). -/
def envC3 : X402Env :=
  { parseAcceptPayment := fun _ => ["paystabl"]
    parseAmount := fun _ => some 1
    toDate := fun _ => 0
    processPayment := fun _ =>
      { txHash := "0xaaa", signature := "0xbbb", agentId := "agentX",
        receiptJson := "receiptX" } }

/-- Response headers carrying an already-expired offer. -/
def headersC3 : List (String × String) :=
  [("Payment-Amount", "amount=1.00 currency=USD"),
   ("Payment-Expires", "Mon, 01 Jan 2001 00:00:00 GMT")]

/-- The evaluation time for the C3 counterexample, after the offer expiry. -/
def nowC3 : Int := 100

/-- An x402 environment whose amount parser reads the offer's
`Payment-Amount` as $2.50. -/
def envC4 : X402Env :=
  { parseAcceptPayment := fun _ => ["paystabl"]
    parseAmount := fun _ => some (5 / 2)
    toDate := fun _ => 2000000000
    processPayment := fun _ =>
      { txHash := "0xccc", signature := "0xddd", agentId := "agentY",
        receiptJson := "receiptY" } }

/-- Response headers offering a price of $2.50. -/
def headersC4 : List (String × String) :=
  [("Payment-Amount", "amount=2.50 currency=USD")]

/-- The caller's stated maximum willing-to-pay in the C4 scenario: $2.00. -/
def ceilingC4 : ℚ := 2

/-- A concrete payment proof for the C7 round-trip check. -/
def proofW : PaymentResult :=
  { txHash := "0xabc", signature := "0xdef", agentId := "agent1",
    receiptJson := "receiptjson" }

/-- The C8 run: every attempt fails with a network error, retry cap 3. -/
def c8Run : Option (Bool × WorkflowState) := run netErrorTrace 10 (initState 3)

/-- What the C8 run actually does: four attempts at t = 0 s, 2 s, 6 s and
14 s (successive backoff delays 2 s, 4 s, 8 s), ending failed with
`NETWORK_ERROR` and exactly 4 attempts logged. -/
def c8Scenario : Prop :=
  c8Run.map (fun r => r.1) = some false ∧
  c8Run.map (fun r => attemptTimes r.2.log) = some [0, 2, 6, 14] ∧
  c8Run.map (fun r => r.2.delays) = some [2, 4, 8] ∧
  c8Run.map (fun r => countAttempts r.2.log) = some 4 ∧
  c8Run.map (fun r => r.2.lastError) = some (some .NETWORK_ERROR)

/-- The final state of a run whose very first attempt succeeds, with
`maxRetries = 0`: used to discharge the C8 theorem's hypothesis at a
concrete input. -/
def w8Final : WorkflowState :=
  { currentService := 0, retryCount := 0, maxRetries := 0,
    log := [.attempt 1 0 1000 0 true], clock := 0,
    strategy := .EXPONENTIAL_BACKOFF, lastError := none, totalCost := 1000,
    delays := [] }

/-! ## Helper lemmas -/

theorem attemptsGet_attemptsSet_self (m : List (String × Nat)) (k : String)
    (v : Nat) : attemptsGet (attemptsSet m k v) k = v := by
  induction m with
  | nil => simp [attemptsSet, attemptsGet]
  | cons hd tl ih =>
    by_cases h1 : hd.1 = k
    · simp [attemptsSet, attemptsGet, h1, List.find?]
    · by_cases h2 : tl.any (fun e => e.1 = k)
      · simp [attemptsSet, attemptsGet, h1, h2, List.find?] at ih ⊢
        exact ih
      · simp [attemptsSet, attemptsGet, h1, h2, List.find?] at ih ⊢
        exact ih

theorem attemptsGet_reset (c : String) (m : List (String × Nat)) :
    attemptsGet (resetRateLimit c m) (rateKey c) = 0 := by
  induction m with
  | nil => simp [resetRateLimit, attemptsGet]
  | cons hd tl ih =>
    by_cases h : hd.1 = rateKey c
    · simpa [resetRateLimit, attemptsGet, h] using ih
    · simpa [resetRateLimit, attemptsGet, h, List.find?] using ih

theorem iterateRateLimit_admitted (c : String) :
    ∀ (n : Nat) (m : List (String × Nat)),
      (iterateRateLimit c n m).1 =
        min n (10 - min (attemptsGet m (rateKey c)) 10) := by
  intro n
  induction n with
  | zero => intro m; simp [iterateRateLimit]
  | succ n ih =>
    intro m
    by_cases h : attemptsGet m (rateKey c) ≥ 10
    · simp [iterateRateLimit, checkRateLimit, if_pos h, ih]
      omega
    · simp [iterateRateLimit, checkRateLimit, if_neg h, ih,
        attemptsGet_attemptsSet_self]
      omega

/-! ## Claim theorems -/

/-- C7.  The claim says `buildProofHeader` output is always re-parseable and
that parsing recovers the proof's fields (type, receipt, signature, agent)
unchanged.  The documented parser first runs `header.replace(/=/g, '&')`,
which turns every `key=value` pair into two bare keys, so parsing the
formatted header of a concrete proof yields `type = ""` and null receipt,
signature and agent: none of the fields survive the round trip.  This
contradicts the same file's own `X-Payment` grammar
(`type=paystabl receipt=<tx-hash> signature=<payment-signature>
agent=<agent-id>`), which that parser is written to read. -/
theorem parsePaymentHeader_losesProofFields :
    parsePaymentHeader (formatPaymentHeader proofW) =
      { type := some "", receipt := none, signature := none, agent := none,
        amount := none } ∧
    (parsePaymentHeader (formatPaymentHeader proofW)).type ≠ some "paystabl" ∧
    (parsePaymentHeader (formatPaymentHeader proofW)).receipt ≠
      some proofW.txHash ∧
    (parsePaymentHeader (formatPaymentHeader proofW)).signature ≠
      some proofW.signature ∧
    (parsePaymentHeader (formatPaymentHeader proofW)).agent ≠
      some proofW.agentId := by
  refine ⟨by decide, by decide, by decide, by decide, by decide⟩

/-- C10.  The payment rate limiter admits at most 10 attempts per client
per window: below 10 recorded attempts `checkRateLimit` admits and
increments the counter, at or above 10 it refuses and leaves the store
unchanged, any sequence of calls starting from a cleared store admits at
most `min n 10` attempts, and the hourly reset deletes the counter so the
next call is admitted again. -/
theorem checkRateLimit_capsAttempts (c : String) (m : List (String × Nat)) :
    (attemptsGet m (rateKey c) < 10 →
      (checkRateLimit c m).1 = true ∧
      attemptsGet (checkRateLimit c m).2 (rateKey c) =
        attemptsGet m (rateKey c) + 1) ∧
    (10 ≤ attemptsGet m (rateKey c) → checkRateLimit c m = (false, m)) ∧
    (∀ n, (iterateRateLimit c n []).1 = min n 10) ∧
    attemptsGet (resetRateLimit c m) (rateKey c) = 0 ∧
    (checkRateLimit c (resetRateLimit c m)).1 = true := by
  refine ⟨fun h => ?_, fun h => ?_, fun n => ?_, attemptsGet_reset c m, ?_⟩
  · have hne : ¬ attemptsGet m (rateKey c) ≥ 10 := by omega
    refine ⟨by simp [checkRateLimit, hne], ?_⟩
    simp only [checkRateLimit, if_neg hne]
    exact attemptsGet_attemptsSet_self ..
  · simp [checkRateLimit, h]
  · have := iterateRateLimit_admitted c n []
    simpa [attemptsGet] using this
  · simp [checkRateLimit, attemptsGet_reset c m]

/-- C1.  A proof commits at most once: when `verifyPayment` succeeds, its
receipt key was not yet consumed, the updated store records it exactly once,
and every later `verifyPayment` of the same proof against any store that
already contains the key is rejected with the already-used error (the other
checks still pass, since the external collaborators are deterministic). -/
theorem verifyPayment_commitsExactlyOnce (env : VerifyEnv) (p : Payment)
    (used : List (Option String)) (r : VerificationResult)
    (used' : List (Option String))
    (h : verifyPayment env p used = .ok (r, used')) :
    p.receipt ∉ used ∧ used' = p.receipt :: used ∧
    used'.count p.receipt = 1 ∧
    ∀ t, p.receipt ∈ t → verifyPayment env p t = .error .alreadyUsed := by
  simp only [verifyPayment] at h
  by_cases h1 : env.verifySignature p = true
  · rw [if_pos h1] at h
    by_cases h2 : env.verifyTransactionExists p.receipt = true
    · rw [if_pos h2] at h
      by_cases h3 : (env.getTransactionDetails p.receipt).amount < env.requiredAmount
      · rw [if_pos h3] at h; cases h
      · rw [if_neg h3] at h
        by_cases h4 : (env.getTransactionDetails p.receipt).recipient ≠ env.paymentAddress
        · rw [if_pos h4] at h; cases h
        · rw [if_neg h4] at h
          by_cases h5 : p.receipt ∈ used
          · rw [if_pos h5] at h; cases h
          · rw [if_neg h5] at h
            cases h
            refine ⟨h5, rfl, ?_, ?_⟩
            · simp [List.count_cons, List.count_eq_zero.mpr h5]
            · intro t ht
              simp only [verifyPayment]
              rw [if_pos h1, if_pos h2, if_neg h3, if_neg h4, if_pos ht]
    · rw [if_neg h2] at h; cases h
  · rw [if_neg h1] at h; cases h

/-- C1 witness: at a concrete all-checks-pass environment and an empty
store, verification succeeds, consumes receipt `0x1`, and replaying the
same proof is rejected as already used. -/
theorem verifyPayment_commitsExactlyOnce_witness :
    verifyPayment verifyEnvW paymentW [] =
      .ok ({ valid := true, amount := 3, timestamp := 7 }, [paymentW.receipt]) ∧
    (paymentW.receipt ∉ ([] : List (Option String)) ∧
      [paymentW.receipt] = paymentW.receipt :: [] ∧
      List.count paymentW.receipt [paymentW.receipt] = 1 ∧
      ∀ t, paymentW.receipt ∈ t →
        verifyPayment verifyEnvW paymentW t = .error .alreadyUsed) :=
  ⟨rfl,
   verifyPayment_commitsExactlyOnce verifyEnvW paymentW []
     { valid := true, amount := 3, timestamp := 7 } [paymentW.receipt] rfl⟩

theorem executePayment_preserves (w : AgentWallet) (op : PaymentOp)
    (w' : AgentWallet) (h : executePayment w op = .ok w') :
    w'.dailyLimits = w.dailyLimits ∧
    ∀ a, w.dailySpent a ≤ w.dailyLimits a → w'.dailySpent a ≤ w'.dailyLimits a := by
  simp only [executePayment] at h
  by_cases h1 : op.sender = w.agent
  · rw [if_pos h1] at h
    by_cases h2 : w.dailySpent op.sender + op.amount ≤ w.dailyLimits op.sender
    · rw [if_pos h2] at h
      by_cases h3 : w.allowlist op.recipient = true
      · rw [if_pos h3] at h
        by_cases h4 : op.callOk = true
        · rw [if_pos h4] at h
          cases h
          refine ⟨rfl, fun a ha => ?_⟩
          by_cases h5 : a = op.sender
          · subst h5; simpa using h2
          · simpa [h5] using ha
        · rw [if_neg h4] at h; cases h
      · rw [if_neg h3] at h; cases h
    · rw [if_neg h2] at h; cases h
  · rw [if_neg h1] at h; cases h

theorem runPayments_preserves (ops : List PaymentOp) :
    ∀ (w : AgentWallet) (a : Nat), w.dailySpent a ≤ w.dailyLimits a →
      (runPayments w ops).dailySpent a ≤ (runPayments w ops).dailyLimits a := by
  induction ops with
  | nil => intro w a h; simpa [runPayments] using h
  | cons op rest ih =>
    intro w a h
    have hstep : runPayments w (op :: rest) =
        runPayments
          (match executePayment w op with
           | .ok w' => w'
           | .error _ => w) rest := by
      simp [runPayments]
    rw [hstep]
    rcases hop : executePayment w op with e | w'
    · simp only [hop]
      exact ih w a h
    · simp only [hop]
      exact ih w' a ((executePayment_preserves w op w' hop).2 a h)

/-- C2.  Committed spend within one window never exceeds the configured
limit: from any storage state respecting the daily limit, any sequence of
`executePayment` calls leaves `dailySpent` at or below `dailyLimits` (the
contract's `withinLimits` guard plus revert-on-failure).  The conclusion
also carries the claim's scenario (`c2Scenario`): with a $10.00 daily limit
and an allowlisted counterparty, of two sequential $6.00 payments the first
commits, the second is denied with the daily-limit (periodic) reason, and
total committed spend stays at $6.00 — on both the `AgentWallet` contract
and `checkSpendingLimits`. -/
theorem dailyLimit_neverExceeded (w : AgentWallet) (ops : List PaymentOp)
    (a : Nat) (h : w.dailySpent a ≤ w.dailyLimits a) :
    (runPayments w ops).dailySpent a ≤ (runPayments w ops).dailyLimits a ∧
    c2Scenario := by
  refine ⟨runPayments_preserves ops w a h, rfl, rfl, rfl,
    by norm_num [checkSpendingLimits, pol10],
    by norm_num [checkSpendingLimits, pol10]⟩

/-- C2 witness: the invariant instantiated at the concrete wallet with an
empty call sequence, scenario included. -/
theorem dailyLimit_neverExceeded_witness :
    walletA.dailySpent 0 ≤ walletA.dailyLimits 0 ∧
    ((runPayments walletA []).dailySpent 0 ≤
        (runPayments walletA []).dailyLimits 0 ∧
      c2Scenario) :=
  ⟨by decide, dailyLimit_neverExceeded walletA [] 0 (by decide)⟩

/-- C5 counterexample.  The claim says checks run in the fixed order
allowlist, time-window, per-transaction, velocity, periodic, short-circuit
on the first failure, and report only the earliest failing check's reason.
In the code all four checks (`Promise.all`) are evaluated and every failing
check's error is reported: with the daily (periodic) limit and the
time-window both failing, the result lists two reasons — the periodic-limit
error first, before the time-window error the claimed order would have
short-circuited on — and no allowlist check exists among the evaluated
validations at all. -/
theorem validateTransaction_noShortCircuit_cex :
    validateTransaction { daily := 6 } 6 pol10 failTimeCheck passCheck passCheck =
      { valid := false,
        errors := [some "Transaction would exceed daily limit",
                   some "Outside allowed hours"],
        requiresApproval := false } ∧
    (validateTransaction { daily := 6 } 6 pol10 failTimeCheck passCheck
        passCheck).errors.length ≠ 1 := by
  have h : checkSpendingLimits { daily := 6 } 6 pol10 =
      { valid := false, error := some "Transaction would exceed daily limit",
        requiresApproval := false } := by
    norm_num [checkSpendingLimits, pol10]
  constructor
  · simp [validateTransaction, h, failTimeCheck, passCheck]
  · simp [validateTransaction, h, failTimeCheck, passCheck]

/-- C5 (amended).  `validateTransaction` evaluates all four checks —
spending limits, time restrictions, velocity, suspicious activity — with no
short-circuit and no allowlist check: the result is valid iff every check
passes, every failing check's error is reported (not only the earliest),
and approval is required iff some failing check requests it. -/
theorem validateTransaction_evaluatesAllChecks (cs : CurrentSpending)
    (amount : ℚ) (pol : SpendingPolicies) (t v su : ValidationResult) :
    ((validateTransaction cs amount pol t v su).valid = true ↔
      ∀ c ∈ [checkSpendingLimits cs amount pol, t, v, su], c.valid = true) ∧
    (∀ c ∈ [checkSpendingLimits cs amount pol, t, v, su], c.valid = false →
      c.error ∈ (validateTransaction cs amount pol t v su).errors) ∧
    ((validateTransaction cs amount pol t v su).requiresApproval = true ↔
      ∃ c ∈ [checkSpendingLimits cs amount pol, t, v, su],
        c.valid = false ∧ c.requiresApproval = true) := by
  refine ⟨?_, ?_, ?_⟩
  · simp only [validateTransaction, List.isEmpty_iff, List.filter_eq_nil_iff]
    constructor
    · intro h c hc
      have := h c hc
      simpa using this
    · intro h c hc
      simp [h c hc]
  · intro c hc hfail
    simp only [validateTransaction]
    exact List.mem_map_of_mem _ (List.mem_filter.mpr ⟨hc, by simp [hfail]⟩)
  · simp only [validateTransaction, List.any_eq_true, List.mem_filter]
    constructor
    · rintro ⟨c, ⟨hc, hfail⟩, happ⟩
      exact ⟨c, hc, by simpa using hfail, happ⟩
    · rintro ⟨c, hc, hfail, happ⟩
      exact ⟨c, ⟨hc, by simp [hfail]⟩, happ⟩

/-- C6 counterexample.  The claim says any amount at or above
`requireApprovalAbove` yields `RequiresApproval` regardless of other checks
passing.  The evaluated code has no such input: a $30.00 transaction — at or
above the documentation's configured `requireApprovalAbove: "25.00"` — that
passes every check comes back valid with `requiresApproval = false`. -/
theorem requireApprovalAbove_notEnforced_cex :
    (25 : ℚ) ≤ 30 ∧
    validateTransaction { daily := 0 } 30 polWide passCheck passCheck passCheck =
      { valid := true, errors := [], requiresApproval := false } := by
  constructor
  · norm_num
  · have h : checkSpendingLimits { daily := 0 } 30 polWide = { valid := true } := by
      norm_num [checkSpendingLimits, polWide]
    simp [validateTransaction, h, passCheck]

/-- C6 (amended).  `requiresApproval` in the validation result comes only
from failing checks: an amount over the per-transaction limit makes the
result invalid with `requiresApproval = true`, and a transaction that
passes every check is valid with `requiresApproval = false` whatever its
amount — no `requireApprovalAbove` threshold enters the computation. -/
theorem validateTransaction_approvalOnlyFromFailures (cs : CurrentSpending)
    (amount : ℚ) (pol : SpendingPolicies) (t v su : ValidationResult) :
    (amount > pol.perTransactionLimit →
      (validateTransaction cs amount pol t v su).valid = false ∧
      (validateTransaction cs amount pol t v su).requiresApproval = true) ∧
    ((validateTransaction cs amount pol t v su).valid = true →
      (validateTransaction cs amount pol t v su).requiresApproval = false) := by
  constructor
  · intro h
    have hspend : checkSpendingLimits cs amount pol =
        { valid := false, error := some "Transaction exceeds per-transaction limit",
          requiresApproval := true } := by
      simp only [checkSpendingLimits, if_pos h]
    constructor
    · simp [validateTransaction, hspend]
    · simp [validateTransaction, hspend]
  · intro h
    simp only [validateTransaction, List.isEmpty_iff] at h
    simp [validateTransaction, h]

/-- C3 counterexample.  The claim says an offer whose `expiresAt` is in the
past is rejected with `PAYMENT_EXPIRED` and never reaches signing.  At a
concrete response whose parsed expiry (epoch 0) lies before the evaluation
time, `handleX402Response` still sends exactly one request to the payment
processor and returns retry headers — its result type has no rejection at
all, and `PAYMENT_EXPIRED` exists in the repository only as a server-side
error code. -/
theorem expiredOffer_stillSigned_cex :
    (parseX402Headers envC3 headersC3).expiresAt < nowC3 ∧
    (handleX402Response envC3 headersC3).signerRequests.length = 1 ∧
    (handleX402Response envC3 headersC3).retryHeaders ≠ [] := by
  refine ⟨by decide, rfl, by decide⟩

/-- C3 (amended).  For every offer whose parsed `expiresAt` is already in
the past, `handleX402Response` nevertheless invokes the payment step exactly
once, on the parsed details, and returns the payment retry headers: no
client-side expiry check exists. -/
theorem handleX402Response_ignoresExpiry (env : X402Env)
    (hs : List (String × String)) (now : Int)
    (_hexp : (parseX402Headers env hs).expiresAt < now) :
    (handleX402Response env hs).signerRequests =
      [processRequestOf (parseX402Headers env hs)] ∧
    (handleX402Response env hs).retryHeaders =
      [("X-Payment",
        formatPaymentHeader
          (env.processPayment (processRequestOf (parseX402Headers env hs)))),
       ("X-Payment-Receipt",
        (env.processPayment
          (processRequestOf (parseX402Headers env hs))).receiptJson)] :=
  ⟨rfl, rfl⟩

/-- C3 witness: the amended theorem applied to the concrete expired offer. -/
theorem handleX402Response_ignoresExpiry_witness :
    (parseX402Headers envC3 headersC3).expiresAt < nowC3 ∧
    ((handleX402Response envC3 headersC3).signerRequests =
        [processRequestOf (parseX402Headers envC3 headersC3)] ∧
      (handleX402Response envC3 headersC3).retryHeaders =
        [("X-Payment",
          formatPaymentHeader
            (envC3.processPayment
              (processRequestOf (parseX402Headers envC3 headersC3)))),
         ("X-Payment-Receipt",
          (envC3.processPayment
            (processRequestOf (parseX402Headers envC3 headersC3))).receiptJson)]) :=
  ⟨by decide, handleX402Response_ignoresExpiry envC3 headersC3 nowC3 (by decide)⟩

/-- C4 counterexample.  The claim says an offer of $2.50 against a caller
ceiling of $2.00 returns `Reject(AMOUNT_EXCEEDS_CEILING)` with no signing
attempted and the fallback invoked.  `handleX402Response` takes no ceiling
input: on the concrete $2.50 offer it sends the payment request to the
processor with the full parsed amount and returns payment headers — there
is no rejection value, no `AMOUNT_EXCEEDS_CEILING` anywhere in the
repository, and no fallback at this layer. -/
theorem overCeilingOffer_stillSigned_cex :
    (parseX402Headers envC4 headersC4).amount = some (5 / 2) ∧
    ceilingC4 < 5 / 2 ∧
    (handleX402Response envC4 headersC4).signerRequests =
      [{ amount := some (5 / 2), currency := none, purpose := none,
         recipient := none }] := by
  refine ⟨rfl, by norm_num [ceilingC4], rfl⟩

/-- C4 (amended).  For every offer whose parsed amount exceeds any caller
ceiling, `handleX402Response` still invokes the payment step exactly once
and forwards the parsed amount unchanged to the processor: the handler has
no notion of a maximum willing-to-pay. -/
theorem handleX402Response_noCeilingCheck (env : X402Env)
    (hs : List (String × String)) (ceiling : ℚ)
    (_hover : (parseX402Headers env hs).amount.getD 0 > ceiling) :
    (handleX402Response env hs).signerRequests =
      [processRequestOf (parseX402Headers env hs)] ∧
    (processRequestOf (parseX402Headers env hs)).amount =
      (parseX402Headers env hs).amount :=
  ⟨rfl, rfl⟩

/-- C4 witness: the amended theorem applied to the concrete $2.50 offer
against the $2.00 ceiling. -/
theorem handleX402Response_noCeilingCheck_witness :
    (parseX402Headers envC4 headersC4).amount.getD 0 > ceilingC4 ∧
    ((handleX402Response envC4 headersC4).signerRequests =
        [processRequestOf (parseX402Headers envC4 headersC4)] ∧
      (processRequestOf (parseX402Headers envC4 headersC4)).amount =
        (parseX402Headers envC4 headersC4).amount) :=
  ⟨by norm_num [parseX402Headers, envC4, ceilingC4],
   handleX402Response_noCeilingCheck envC4 headersC4 ceilingC4
     (by norm_num [parseX402Headers, envC4, ceilingC4])⟩

/-! ## Workflow lemmas -/

theorem countAttempts_append (l1 l2 : List LogEntry) :
    countAttempts (l1 ++ l2) = countAttempts l1 + countAttempts l2 := by
  simp [countAttempts, List.countP_append]

theorem switchCount_append (l1 l2 : List LogEntry) :
    switchCount (l1 ++ l2) = switchCount l1 + switchCount l2 := by
  simp [switchCount, List.countP_append]

theorem ap_currentService (s : WorkflowState) (oc : Option ErrorCode) :
    (attempt_payment s oc).currentService = s.currentService := rfl

theorem ap_retryCount (s : WorkflowState) (oc : Option ErrorCode) :
    (attempt_payment s oc).retryCount = s.retryCount := rfl

theorem ap_maxRetries (s : WorkflowState) (oc : Option ErrorCode) :
    (attempt_payment s oc).maxRetries = s.maxRetries := rfl

theorem ap_log (s : WorkflowState) (oc : Option ErrorCode) :
    (attempt_payment s oc).log = s.log ++
      [.attempt (s.retryCount + 1) s.currentService
        (serviceCostCents s.currentService) s.clock oc.isNone] := rfl

theorem ap_delays (s : WorkflowState) (oc : Option ErrorCode) :
    (attempt_payment s oc).delays = s.delays := rfl

theorem countAttempts_ap (s : WorkflowState) (oc : Option ErrorCode) :
    countAttempts (attempt_payment s oc).log = countAttempts s.log + 1 := by
  rw [ap_log, countAttempts_append]
  rfl

theorem switchCount_ap (s : WorkflowState) (oc : Option ErrorCode) :
    switchCount (attempt_payment s oc).log = switchCount s.log := by
  rw [ap_log, switchCount_append]
  rfl

theorem mem_ap_log (s : WorkflowState) (oc : Option ErrorCode) (a b : Nat)
    (h : LogEntry.serviceSwitch a b ∈ (attempt_payment s oc).log) :
    LogEntry.serviceSwitch a b ∈ s.log := by
  rw [ap_log] at h
  rcases List.mem_append.mp h with h' | h'
  · exact h'
  · simp at h'

theorem serviceCost_ne_zero (i : Nat) (hle : i ≤ 3)
    (h : serviceCostCents i ≠ 0) : i < 3 := by
  by_contra hc
  have h3 : i = 3 := by omega
  subst h3
  exact h rfl

/-- Each run step from a live state terminates within the fuel given by the
measure, and stays within `RunBound` of the starting state. -/
theorem run_bounded (outcomes : Nat → Option ErrorCode) :
    ∀ (fuel : Nat) (s : WorkflowState),
      s.currentService ≤ 3 → s.retryCount ≤ s.maxRetries →
      runMeasure s < fuel →
      ∃ b t, run outcomes fuel s = some (b, t) ∧ RunBound s t := by
  intro fuel
  induction fuel with
  | zero => intro s _ _ hf; exact absurd hf (Nat.not_lt_zero _)
  | succ f ih =>
    intro s hidx hrc hf
    simp only [run]
    rcases hoc : attemptOutcome outcomes s with _ | e
    · refine ⟨true, attempt_payment s none, rfl, ?_, ?_, rfl, ?_, ?_⟩
      · rw [countAttempts_ap]; omega
      · rw [switchCount_ap]; omega
      · intro a b h
        exact Or.inl (mem_ap_log s none a b h)
      · intro d hd
        rw [ap_delays] at hd
        exact Or.inl hd
    · dsimp only
      have hidx3 : s.currentService < 3 := by
        refine serviceCost_ne_zero _ hidx fun h0 => ?_
        rw [attemptOutcome, if_pos h0] at hoc
        cases hoc
      by_cases hM : s.retryCount < s.maxRetries
      · rw [if_pos (show (attempt_payment s (some e)).retryCount <
            (attempt_payment s (some e)).maxRetries from hM)]
        -- shared treatment of the two backoff strategies
        have Hback : ∀ (st : RetryStrategy),
            (st = .EXPONENTIAL_BACKOFF ∨ st = .LINEAR_BACKOFF) →
            ∃ b t, run outcomes f
              (retry_with_backoff
                { attempt_payment s (some e) with strategy := st }) =
                some (b, t) ∧ RunBound s t := by
          intro st hst
          set s2 : WorkflowState :=
            { attempt_payment s (some e) with strategy := st } with hs2
          have hdelay : ∃ d, retry_with_backoff s2 =
              { s2 with
                retryCount := s2.retryCount + 1
                clock := s2.clock + min d 60
                delays := s2.delays ++ [min d 60] } := by
            exact ⟨_, rfl⟩
          obtain ⟨d, hd⟩ := hdelay
          have h1 : (retry_with_backoff s2).currentService = s.currentService := by
            rw [hd]; rfl
          have h2 : (retry_with_backoff s2).retryCount = s.retryCount + 1 := by
            rw [hd]; rfl
          have h3 : (retry_with_backoff s2).maxRetries = s.maxRetries := by
            rw [hd]; rfl
          have h4 : (retry_with_backoff s2).log = (attempt_payment s (some e)).log := by
            rw [hd]
          have h5 : (retry_with_backoff s2).delays = s.delays ++ [min d 60] := by
            rw [hd]; rfl
          have hμ : runMeasure (retry_with_backoff s2) + 1 = runMeasure s := by
            simp only [runMeasure, h1, h2, h3]
            omega
          obtain ⟨b, t, heq, hb1, hb2, hb3, hb4, hb5⟩ :=
            ih (retry_with_backoff s2) (by rw [h1]; exact hidx)
              (by rw [h2, h3]; omega) (by omega)
          refine ⟨b, t, heq, ?_, ?_, ?_, ?_, ?_⟩
          · rw [h4, countAttempts_ap] at hb1
            omega
          · rw [h4, switchCount_ap, h1] at hb2
            omega
          · rw [hb3, h3]
          · intro a b' hmem
            rcases hb4 a b' hmem with h' | h'
            · rw [h4] at h'
              exact Or.inl (mem_ap_log s (some e) a b' h')
            · exact Or.inr h'
          · intro dd hdd
            rcases hb5 dd hdd with h' | h'
            · rw [h5] at h'
              rcases List.mem_append.mp h' with h'' | h''
              · exact Or.inl h''
              · simp at h''
                subst h''
                exact Or.inr (Nat.min_le_right _ _)
            · exact Or.inr h'
        -- shared treatment of the alternative-service strategy
        have Halt :
            ∃ b t, run outcomes f
              (try_alternative_service
                { attempt_payment s (some e) with
                  strategy := .ALTERNATIVE_SERVICE }) = some (b, t) ∧
              RunBound s t := by
          set s2 : WorkflowState :=
            { attempt_payment s (some e) with
              strategy := .ALTERNATIVE_SERVICE } with hs2
          have hcond : s2.currentService + 1 < numServices := by
            show s.currentService + 1 < 4
            omega
          have hstep : try_alternative_service s2 =
              { s2 with
                log := s2.log ++
                  [.serviceSwitch s2.currentService (s2.currentService + 1)]
                currentService := s2.currentService + 1
                retryCount := 0 } := by
            rw [try_alternative_service, if_pos hcond]
          have h1 : (try_alternative_service s2).currentService =
              s.currentService + 1 := by rw [hstep]; rfl
          have h2 : (try_alternative_service s2).retryCount = 0 := by
            rw [hstep]
          have h3 : (try_alternative_service s2).maxRetries = s.maxRetries := by
            rw [hstep]; rfl
          have h4 : (try_alternative_service s2).log =
              (attempt_payment s (some e)).log ++
                [.serviceSwitch s.currentService (s.currentService + 1)] := by
            rw [hstep]; rfl
          have h5 : (try_alternative_service s2).delays = s.delays := by
            rw [hstep]; rfl
          have hmul : (3 - s.currentService) * (s.maxRetries + 1) =
              (3 - (s.currentService + 1)) * (s.maxRetries + 1) +
                (s.maxRetries + 1) := by
            have : 3 - s.currentService = (3 - (s.currentService + 1)) + 1 := by
              omega
            rw [this, Nat.succ_mul]
          have hμ : runMeasure (try_alternative_service s2) + 1 ≤ runMeasure s := by
            simp only [runMeasure, h1, h2, h3, hmul]
            omega
          obtain ⟨b, t, heq, hb1, hb2, hb3, hb4, hb5⟩ :=
            ih (try_alternative_service s2) (by rw [h1]; omega)
              (by rw [h2]; omega) (by omega)
          refine ⟨b, t, heq, ?_, ?_, ?_, ?_, ?_⟩
          · rw [h4, countAttempts_append, countAttempts_ap] at hb1
            have : countAttempts
                [LogEntry.serviceSwitch s.currentService (s.currentService + 1)] =
                0 := rfl
            omega
          · rw [h4, switchCount_append, switchCount_ap, h1] at hb2
            have : switchCount
                [LogEntry.serviceSwitch s.currentService (s.currentService + 1)] =
                1 := rfl
            omega
          · rw [hb3, h3]
          · intro a b' hmem
            rcases hb4 a b' hmem with h' | h'
            · rw [h4] at h'
              rcases List.mem_append.mp h' with h'' | h''
              · exact Or.inl (mem_ap_log s (some e) a b' h'')
              · simp at h''
                exact Or.inr ⟨by omega, by omega⟩
            · exact Or.inr h'
          · intro dd hdd
            rcases hb5 dd hdd with h' | h'
            · rw [h5] at h'
              exact Or.inl h'
            · exact Or.inr h'
        have hroute : s.currentService < numServices - 1 := hidx3
        cases e
        · simpa only [classifyError, route_failure_handling, ap_currentService,
            if_pos hroute] using Halt
        · simpa only [classifyError, route_failure_handling] using
            Hback .EXPONENTIAL_BACKOFF (Or.inl rfl)
        · simpa only [classifyError, route_failure_handling, ap_currentService,
            if_pos hroute] using Halt
        · simpa only [classifyError, route_failure_handling] using
            Hback .LINEAR_BACKOFF (Or.inr rfl)
        · simpa only [classifyError, route_failure_handling, ap_currentService,
            if_pos hroute] using Halt
      · rw [if_neg (show ¬ (attempt_payment s (some e)).retryCount <
            (attempt_payment s (some e)).maxRetries from hM)]
        refine ⟨false, attempt_payment s (some e), rfl, ?_, ?_, rfl, ?_, ?_⟩
        · rw [countAttempts_ap]; omega
        · rw [switchCount_ap]; omega
        · intro a b h
          exact Or.inl (mem_ap_log s (some e) a b h)
        · intro d hd
          rw [ap_delays] at hd
          exact Or.inl hd

/-- C9.  The fallback chain terminates: whatever the paid services' failure
pattern, a run with retry cap `M` reaches a terminal node within `4·M + 4`
attempts of fuel, performs at most 3 target-switches (fewer than the
`numServices = 4` configured targets), every switch moves exactly one step
down the chain to a strictly cheaper target, and switching resets the
per-target retry count to zero. -/
theorem fallbackChain_terminates (outcomes : Nat → Option ErrorCode)
    (M : Nat) :
    ∃ b t, run outcomes (4 * M + 4) (initState M) = some (b, t) ∧
      countAttempts t.log ≤ 4 * M + 4 ∧
      switchCount t.log ≤ 3 ∧ 3 < numServices ∧
      (∀ a b', LogEntry.serviceSwitch a b' ∈ t.log →
        b' = a + 1 ∧ serviceCostCents b' < serviceCostCents a) ∧
      (∀ s' : WorkflowState, s'.currentService < numServices - 1 →
        (try_alternative_service s').retryCount = 0 ∧
        (try_alternative_service s').currentService = s'.currentService + 1) := by
  have hμ : runMeasure (initState M) < 4 * M + 4 := by
    simp only [runMeasure, initState]
    omega
  obtain ⟨b, t, heq, h1, h2, h3, h4, h5⟩ :=
    run_bounded outcomes (4 * M + 4) (initState M)
      (by simp [initState]) (by simp [initState]) hμ
  refine ⟨b, t, heq, ?_, ?_, by decide, ?_, ?_⟩
  · have hze : countAttempts (initState M).log = 0 := rfl
    have hms : runMeasure (initState M) = 3 * (M + 1) + M := by
      simp only [runMeasure, initState]
      omega
    omega
  · have hze : switchCount (initState M).log = 0 := rfl
    have : (initState M).currentService = 0 := rfl
    omega
  · intro a b' hmem
    rcases h4 a b' hmem with h' | ⟨hb, ha⟩
    · simp [initState] at h'
    · subst hb
      refine ⟨rfl, ?_⟩
      interval_cases a <;> decide
  · intro s' hlt
    have hcond : s'.currentService + 1 < numServices := by
      simp only [numServices] at hlt ⊢
      omega
    rw [try_alternative_service, if_pos hcond]
    exact ⟨rfl, rfl⟩

/-- C8 (amended).  On persistent network errors the workflow retries the
same target with exponential backoff, retries capped at the configured
maximum and every single waited delay capped at the 60-second ceiling; with
`max_retries = 3` and base 2 s the four attempts occur at t = 0 s, 2 s, 6 s
and 14 s (successive delays 2 s, 4 s, 8 s — the delays double, so the later
attempts fall at t = 6 s and 14 s, not 4 s and 8 s), after which the run is
failed with `NETWORK_ERROR` and exactly 4 attempts logged. -/
theorem networkRetry_schedule (outcomes : Nat → Option ErrorCode) (M : Nat)
    (b : Bool) (t : WorkflowState)
    (h : run outcomes (4 * M + 4) (initState M) = some (b, t)) :
    (∀ d ∈ t.delays, d ≤ 60) ∧ c8Scenario := by
  constructor
  · have hμ : runMeasure (initState M) < 4 * M + 4 := by
      simp only [runMeasure, initState]
      omega
    obtain ⟨b', t', heq, -, -, -, -, h5⟩ :=
      run_bounded outcomes (4 * M + 4) (initState M)
        (by simp [initState]) (by simp [initState]) hμ
    rw [h] at heq
    injection heq with heq'
    injection heq' with hb ht
    subst ht
    intro d hd
    rcases h5 d hd with h' | h'
    · simp [initState] at h'
    · exact h'
  · exact ⟨by decide, by decide, by decide, by decide, by decide⟩

/-- C8 counterexample.  The claim places the four attempts at approximately
t = 0 s, 2 s, 4 s and 8 s; the code's delays are `2 ** retry_count` seconds
(2 s, 4 s, 8 s between attempts), so the attempts actually occur at t = 0 s,
2 s, 6 s and 14 s. -/
theorem networkRetry_times_cex :
    c8Run.map (fun r => attemptTimes r.2.log) = some [0, 2, 6, 14] ∧
    c8Run.map (fun r => attemptTimes r.2.log) ≠ some [0, 2, 4, 8] :=
  ⟨by decide, by decide⟩

/-- C8 witness: the schedule theorem applied to a concrete one-attempt run
(first attempt succeeds, retry cap 0). -/
theorem networkRetry_schedule_witness :
    run (fun _ => none) (4 * 0 + 4) (initState 0) = some (true, w8Final) ∧
    ((∀ d ∈ w8Final.delays, d ≤ 60) ∧ c8Scenario) :=
  ⟨by decide, networkRetry_schedule (fun _ => none) 0 true w8Final (by decide)⟩

end Paystabl
